import Mathlib

/-!
Verification of the effectiveness-NTU heat-exchanger engine of `ht/hx.py`.

The Python code computes with IEEE floats; we embed it over the real
numbers.  Python raises exceptions at runtime (`ZeroDivisionError` on
division by zero and on `0.0 ** negative`, `ValueError` from `math.log`
on non-positive arguments, `UnboundLocalError` when a branch structure
leaves a variable unassigned, and the library's own `Exception`s), so
every operation that can raise is embedded in the `Except` monad with an
explicit check mirroring the Python semantics.
-/

open Real

/-- The failure modes of the library, following the spec's error taxonomy
plus the raw Python runtime errors the code can actually raise. -/
inductive HXError
  /-- "Heat capacity rate must be less than 1 by definition." -/
  | invalidInput
  /-- "The specified effectiveness is not physically possible for this
  configuration; the maximum effectiveness possible is ...". Carries the
  reported maximum. -/
  | effectivenessUnattainable (maxEff : ℝ)
  /-- Root finder could not bracket a root (scipy raises when the residual
  does not change sign over the bracket). -/
  | rootBracketFailure
  /-- "One set of (Tci, Thi), (Tci, Tho), (Tco, Thi), or (Tco, Tho) are
  required along with UA." / "At least one temperature is required to be
  specified on the cold side." -/
  | insufficientInput
  /-- "The specified heat capacities, mass flows, and temperatures are
  inconsistent" -/
  | inconsistentInput
  /-- "Supported numbers of tube passes are ..." -/
  | unsupportedPassCount
  /-- Python `UnboundLocalError`: a branch structure left a local variable
  (`Q`) unassigned and it was then referenced. -/
  | unboundLocal
  /-- Python `ZeroDivisionError`. -/
  | zeroDivision
  /-- Python `ValueError` from `math.log` on a non-positive argument, or a
  power that leaves the real domain. -/
  | mathDomain
  /-- Python `TypeError`: arithmetic on `None`. -/
  | noneArithmetic

/-- The exchanger configuration tag.  The Python code dispatches on a
string; `'nS&T'` carries the shell count parsed from the numeric prefix
(default 1), which we store in the constructor.  Unrecognized strings
(which raise "Input heat exchanger type not recognized") are an
input-parsing concern outside this closed model. -/
inductive HXSubtype
  | counterflow
  | parallel
  /-- `'S&T'` / `'nS&T'`: shell-and-tube with `shells` shells in series. -/
  | ST (shells : ℕ)
  | crossflow
  /-- `'crossflow, mixed Cmin'` -/
  | crossflowMixedCmin
  /-- `'crossflow, mixed Cmax'` -/
  | crossflowMixedCmax
  | boiler
  | condenser
  deriving Repr, DecidableEq

/-- Python float division: raises `ZeroDivisionError` on a zero divisor. -/
noncomputable def pdiv (a b : ℝ) : Except HXError ℝ :=
  if b = 0 then .error .zeroDivision else .ok (a / b)

/-- Python `math.log`: raises `ValueError` on a non-positive argument. -/
noncomputable def plog (x : ℝ) : Except HXError ℝ :=
  if x ≤ 0 then .error .mathDomain else .ok (Real.log x)

/-- Python `**` on floats with a possibly-fractional exponent:
`0.0 ** negative` raises `ZeroDivisionError`; a negative base with a
fractional exponent leaves the real domain (modelled as a domain
failure); otherwise it is the real power. -/
noncomputable def ppow (x p : ℝ) : Except HXError ℝ :=
  if x < 0 then .error .mathDomain
  else if x = 0 ∧ p < 0 then .error .zeroDivision
  else .ok (x ^ p)

theorem pdiv_ok {a b : ℝ} (h : b ≠ 0) : pdiv a b = .ok (a / b) := by
  simp [pdiv, h]

theorem plog_ok {x : ℝ} (h : 0 < x) : plog x = .ok (Real.log x) := by
  simp [plog, not_le.mpr h]

theorem ppow_ok {x p : ℝ} (h : 0 < x) : ppow x p = .ok (x ^ p) := by
  simp [ppow, not_lt.mpr h.le, h.ne']

theorem ppow_ok_zero {p : ℝ} (h : 0 ≤ p) : ppow 0 p = .ok ((0 : ℝ) ^ p) := by
  simp [ppow, not_lt.mpr h]

@[simp] theorem ok_bind {α β : Type} (a : α) (f : α → Except HXError β) :
    (Except.ok a : Except HXError α) >>= f = f a := rfl

@[simp] theorem error_bind {α β : Type} (e : HXError) (f : α → Except HXError β) :
    (Except.error e : Except HXError α) >>= f = .error e := rfl

@[simp] theorem pureHX_bind {α β : Type} (a : α) (f : α → Except HXError β) :
    (pure a : Except HXError α) >>= f = f a := rfl

@[simp] theorem pureHX_eq_ok {α : Type} (a : α) :
    (pure a : Except HXError α) = .ok a := rfl

@[simp] theorem ok_map {α β : Type} (a : α) (f : α → β) :
    f <$> (Except.ok a : Except HXError α) = .ok (f a) := rfl

@[simp] theorem error_map {α β : Type} (e : HXError) (f : α → β) :
    f <$> (Except.error e : Except HXError α) = .error e := rfl

/-- `effectiveness_from_NTU(NTU, Cr, subtype)` from `ht/hx.py`.
Each division / `log` / fractional power goes through the checked
helpers, mirroring the left-to-right evaluation order of the Python
expressions (`(1 + Cr**2)**0.5` is written `Real.sqrt (1 + Cr^2)`: the
base is positive so the Python power is exactly the principal square
root). -/
noncomputable def effectiveness_from_NTU (NTU Cr : ℝ) (subtype : HXSubtype) :
    Except HXError ℝ :=
  if 1 < Cr then .error .invalidInput
  else
    match subtype with
    | .counterflow =>
        if Cr < 1 then
          pdiv (1 - Real.exp (-NTU * (1 - Cr))) (1 - Cr * Real.exp (-NTU * (1 - Cr)))
        else  -- the source tests `elif Cr == 1`; `Cr > 1` was already rejected
          pdiv NTU (1 + NTU)
    | .parallel =>
        pdiv (1 - Real.exp (-NTU * (1 + Cr))) (1 + Cr)
    | .ST shells => do
        -- NTU = NTU/shells
        let NTU1 ← pdiv NTU (shells : ℝ)
        let top := 1 + Real.exp (-NTU1 * Real.sqrt (1 + Cr ^ 2))
        let bottom := 1 - Real.exp (-NTU1 * Real.sqrt (1 + Cr ^ 2))
        -- effectiveness = 2/(1 + Cr + (1 + Cr**2)**0.5 * top/bottom)
        let r ← pdiv (Real.sqrt (1 + Cr ^ 2) * top) bottom
        let e1 ← pdiv 2 (1 + Cr + r)
        if 1 < shells then do
          -- term = ((1 - effectiveness*Cr)/(1 - effectiveness))**shells
          let x ← pdiv (1 - e1 * Cr) (1 - e1)
          let term := x ^ shells
          pdiv (term - 1) (term - Cr)
        else
          pure e1
    | .crossflow => do
        -- 1 - exp(1/Cr * NTU**0.22 * (exp(-Cr*NTU**0.78) - 1))
        let c ← pdiv 1 Cr
        let p ← ppow NTU 0.22
        let q ← ppow NTU 0.78
        pure (1 - Real.exp (c * p * (Real.exp (-Cr * q) - 1)))
    | .crossflowMixedCmin =>
        -- 1 - exp(-Cr**-1 * (1 - exp(-Cr*NTU))); `Cr**-1` has an integer
        -- exponent: it raises ZeroDivisionError exactly when Cr == 0
        if Cr = 0 then .error .zeroDivision
        else .ok (1 - Real.exp (-Cr⁻¹ * (1 - Real.exp (-Cr * NTU))))
    | .crossflowMixedCmax => do
        -- (1/Cr) * (1 - exp(-Cr*(1 - exp(-NTU))))
        let c ← pdiv 1 Cr
        pure (c * (1 - Real.exp (-Cr * (1 - Real.exp (-NTU)))))
    | .boiler => .ok (1 - Real.exp (-NTU))
    | .condenser => .ok (1 - Real.exp (-NTU))

/-- The closed-form residual target of the crossflow (both fluids
unmixed) configuration: the body of `to_solve` in
`NTU_from_effectiveness` and of the `'crossflow'` branch of
`effectiveness_from_NTU`, as a total real function. -/
noncomputable def crossflow_eff (Cr N : ℝ) : ℝ :=
  1 - Real.exp (1 / Cr * N ^ (0.22 : ℝ) * (Real.exp (-Cr * N ^ (0.78 : ℝ)) - 1))

/-- Modelled from the spec (external collaborator `scipy.optimize.ridder`,
not part of this repository): a bracketed root finder over exact real
arithmetic returns a root of the residual inside the bracket when one
exists, and fails (residuals do not change sign / no root) otherwise. -/
noncomputable def ridder (f : ℝ → ℝ) (a b : ℝ) : Except HXError ℝ :=
  haveI := Classical.propDecidable (∃ x, a ≤ x ∧ x ≤ b ∧ f x = 0)
  if h : ∃ x, a ≤ x ∧ x ≤ b ∧ f x = 0 then .ok h.choose
  else .error .rootBracketFailure

/-- The maximum-effectiveness expression raised by the S&T branch of
`NTU_from_effectiveness` (derived with SymPy in the source):
`(-((-Cr + sqrt(Cr**2+1) + 1)/(Cr + sqrt(Cr**2+1) - 1))**shells + 1)
 / (Cr - ((...))**shells)`. -/
noncomputable def ST_max_effectiveness (Cr : ℝ) (shells : ℕ) : Except HXError ℝ := do
  let a ← pdiv (-Cr + Real.sqrt (Cr ^ 2 + 1) + 1) (Cr + Real.sqrt (Cr ^ 2 + 1) - 1)
  pdiv (-(a ^ shells) + 1) (Cr - a ^ shells)

/-- `NTU_from_effectiveness(effectiveness, Cr, subtype)` from `ht/hx.py`.
All divisions, logs and fractional powers go through the checked helpers
in the Python evaluation order. -/
noncomputable def NTU_from_effectiveness (effectiveness Cr : ℝ) (subtype : HXSubtype) :
    Except HXError ℝ :=
  if 1 < Cr then .error .invalidInput
  else
    match subtype with
    | .counterflow =>
        if Cr < 1 then do
          -- 1/(Cr - 1) * log((effectiveness - 1)/(effectiveness*Cr - 1))
          let c ← pdiv 1 (Cr - 1)
          let r ← pdiv (effectiveness - 1) (effectiveness * Cr - 1)
          let l ← plog r
          pure (c * l)
        else  -- Cr == 1
          pdiv effectiveness (1 - effectiveness)
    | .parallel =>
        if 1 < effectiveness * (1 + Cr) then do
          let m ← pdiv 1 (Cr + 1)
          .error (.effectivenessUnattainable m)
        else do
          let l ← plog (1 - effectiveness * (1 + Cr))
          pdiv (-l) (1 + Cr)
    | .ST shells => do
        -- F = ((effectiveness*Cr - 1)/(effectiveness - 1))**(1/shells);
        -- Python evaluates the base before the exponent
        let r ← pdiv (effectiveness * Cr - 1) (effectiveness - 1)
        let ex ← pdiv 1 (shells : ℝ)
        let F ← ppow r ex
        let e1 ← pdiv (F - 1) (F - Cr)
        -- E = (2/e1 - (1 + Cr))/(1 + Cr**2)**0.5
        let t ← pdiv 2 e1
        let E := (t - (1 + Cr)) / Real.sqrt (1 + Cr ^ 2)
        let g ← pdiv (E - 1) (E + 1)
        if g ≤ 0 then do
          let m ← ST_max_effectiveness Cr shells
          .error (.effectivenessUnattainable m)
        else
          -- NTU = -(1 + Cr**2)**-0.5 * log((E-1)/(E+1)); return shells*NTU
          pure ((shells : ℝ) * (-(Real.sqrt (1 + Cr ^ 2))⁻¹ * Real.log g))
    | .crossflow =>
        -- ridder(to_solve, a=1E-7, b=1E5, args=(Cr, effectiveness)); the
        -- residual's `1./Cr` raises on its first evaluation when Cr == 0
        if Cr = 0 then .error .zeroDivision
        else ridder (fun N => crossflow_eff Cr N - effectiveness) 1e-7 1e5
    | .crossflowMixedCmin => do
        let l ← plog (1 - effectiveness)
        if Cr * l < -1 then do
          -- maximum effectiveness: 1 - exp(-1/Cr)
          let c ← pdiv (-1) Cr
          .error (.effectivenessUnattainable (1 - Real.exp c))
        else do
          -- -1/Cr * log(Cr*log(1 - effectiveness) + 1)
          let c ← pdiv (-1) Cr
          let l2 ← plog (Cr * l + 1)
          pure (c * l2)
    | .crossflowMixedCmax => do
        -- guard: 1/Cr * log(1 - effectiveness*Cr) < -1
        let c ← pdiv 1 Cr
        let l ← plog (1 - effectiveness * Cr)
        if c * l < -1 then do
          -- maximum effectiveness: (exp(Cr) - 1)*exp(-Cr)/Cr
          let m ← pdiv ((Real.exp Cr - 1) * Real.exp (-Cr)) Cr
          .error (.effectivenessUnattainable m)
        else do
          let l2 ← plog (1 + c * l)
          pure (-l2)
    | .boiler => do
        let l ← plog (1 - effectiveness)
        pure (-l)
    | .condenser => do
        let l ← plog (1 - effectiveness)
        pure (-l)

/-- The round trip of claim C1: compute the effectiveness from an NTU and
feed it back to the inverse. -/
noncomputable def roundTrip (NTU Cr : ℝ) (subtype : HXSubtype) : Except HXError ℝ :=
  effectiveness_from_NTU NTU Cr subtype >>= fun e =>
    NTU_from_effectiveness e Cr subtype

/-- C4. Cr>1 precondition guard: for every `Cr > 1`,
`effectiveness_from_NTU(NTU, Cr, config)` and
`NTU_from_effectiveness(effectiveness, Cr, config)` both fail with
`InvalidInput`, for every NTU, effectiveness and configuration tag,
before any configuration dispatch occurs. -/
theorem C4_Cr_gt_one_guard (NTU effectiveness Cr : ℝ) (subtype : HXSubtype)
    (h : 1 < Cr) :
    effectiveness_from_NTU NTU Cr subtype = .error .invalidInput ∧
    NTU_from_effectiveness effectiveness Cr subtype = .error .invalidInput := by
  constructor <;> simp [effectiveness_from_NTU, NTU_from_effectiveness, h]

/-- Witness for C4 at `Cr = 2`. -/
theorem C4_Cr_gt_one_guard_witness :
    effectiveness_from_NTU 1 2 .counterflow = .error .invalidInput ∧
    NTU_from_effectiveness (1/2) 2 .counterflow = .error .invalidInput :=
  C4_Cr_gt_one_guard 1 (1/2) 2 .counterflow (by norm_num)

/-- C5 counterexample: the claim includes the S&T configurations, but at
`NTU = 0` the S&T branch computes `top/bottom` with
`bottom = 1 - exp(0) = 0`, so the code raises `ZeroDivisionError`
instead of returning 0. -/
theorem C5_counterexample :
    effectiveness_from_NTU 0 (1/2) (.ST 1) = .error .zeroDivision := by
  norm_num [effectiveness_from_NTU, pdiv]

/-- C5, amended: `effectiveness_from_NTU(0, Cr, config) = 0` holds for the
counterflow, parallel, boiler and condenser configurations for every
`Cr ∈ [0,1]`, and for the three crossflow configurations for every
`Cr ∈ (0,1]`; it fails for the S&T configurations (division by zero at
`NTU = 0`) and for the crossflow configurations at `Cr = 0` (division by
zero). -/
theorem C5_zero_NTU_amended (Cr : ℝ) (hCr0 : 0 ≤ Cr) (hCr1 : Cr ≤ 1) :
    effectiveness_from_NTU 0 Cr .counterflow = .ok 0 ∧
    effectiveness_from_NTU 0 Cr .parallel = .ok 0 ∧
    effectiveness_from_NTU 0 Cr .boiler = .ok 0 ∧
    effectiveness_from_NTU 0 Cr .condenser = .ok 0 ∧
    (0 < Cr → effectiveness_from_NTU 0 Cr .crossflow = .ok 0) ∧
    (0 < Cr → effectiveness_from_NTU 0 Cr .crossflowMixedCmin = .ok 0) ∧
    (0 < Cr → effectiveness_from_NTU 0 Cr .crossflowMixedCmax = .ok 0) := by
  have hn1 : ¬ (1 : ℝ) < Cr := not_lt.mpr hCr1
  refine ⟨?_, ?_, ?_, ?_, ?_, ?_, ?_⟩
  · rcases lt_or_eq_of_le hCr1 with h | h
    · have hd : (1 : ℝ) - Cr ≠ 0 := sub_ne_zero.mpr h.ne'
      simp [effectiveness_from_NTU, hn1, h, pdiv, hd]
    · simp [effectiveness_from_NTU, hn1, h, pdiv]
  · have hd : (1 : ℝ) + Cr ≠ 0 := by positivity
    simp [effectiveness_from_NTU, hn1, pdiv, hd]
  · simp [effectiveness_from_NTU, hn1]
  · simp [effectiveness_from_NTU, hn1]
  · intro hpos
    have hc : Cr ≠ 0 := hpos.ne'
    norm_num [effectiveness_from_NTU, hn1, pdiv, ppow, hc,
      Real.zero_rpow (by norm_num : (0.22:ℝ) ≠ 0),
      Real.zero_rpow (by norm_num : (0.78:ℝ) ≠ 0)]
  · intro hpos
    simp [effectiveness_from_NTU, hn1, hpos.ne']
  · intro hpos
    simp [effectiveness_from_NTU, hn1, pdiv, hpos.ne']

/-- Witness for C5 amended, at `Cr = 1/2`. -/
theorem C5_zero_NTU_amended_witness :
    effectiveness_from_NTU 0 (1/2) .counterflow = .ok 0 ∧
    effectiveness_from_NTU 0 (1/2) .crossflow = .ok 0 := by
  have h := C5_zero_NTU_amended (1/2) (by norm_num) (by norm_num)
  exact ⟨h.1, h.2.2.2.2.1 (by norm_num)⟩

/-- C6: at `Cr = 0` the three crossflow branches of
`effectiveness_from_NTU` all divide by `Cr` (`1./Cr` resp. `Cr**-1`) and
raise `ZeroDivisionError`, although the claim — and the function's own
docstring ("For cases where Cr = 0 ... flow arrangement does not
matter") — require the value `1 - exp(-NTU)`. -/
theorem C6_Cr_zero_code_bug :
    effectiveness_from_NTU 1 0 .crossflow = .error .zeroDivision ∧
    effectiveness_from_NTU 1 0 .crossflowMixedCmin = .error .zeroDivision ∧
    effectiveness_from_NTU 1 0 .crossflowMixedCmax = .error .zeroDivision ∧
    effectiveness_from_NTU 1 0 .counterflow = .ok (1 - Real.exp (-1)) ∧
    effectiveness_from_NTU 1 0 .boiler = .ok (1 - Real.exp (-1)) := by
  refine ⟨?_, ?_, ?_, ?_, ?_⟩
  · norm_num [effectiveness_from_NTU, pdiv]
  · norm_num [effectiveness_from_NTU]
  · norm_num [effectiveness_from_NTU, pdiv]
  · norm_num [effectiveness_from_NTU, pdiv]
  · norm_num [effectiveness_from_NTU]

/-- C2 counterexample: the claim includes counterflow among the guarded
configurations, but the counterflow branch of `NTU_from_effectiveness`
has no feasibility guard at all: at `effectiveness = 3 > 1 ≥ max` with
`Cr = 1/2` it happily returns the (unphysical) value `-2·log 4` instead
of failing with `EffectivenessUnattainable`. -/
theorem C2_counterexample :
    NTU_from_effectiveness 3 (1/2) .counterflow = .ok (-2 * Real.log 4) := by
  norm_num [NTU_from_effectiveness, pdiv, plog]

/-- The value of the S&T maximum-effectiveness expression (the payload of
the `EffectivenessUnattainable` failure), as a plain real number. -/
noncomputable def ST_maxVal (Cr : ℝ) (n : ℕ) : ℝ :=
  (1 - ((-Cr + Real.sqrt (Cr ^ 2 + 1) + 1) / (Cr + Real.sqrt (Cr ^ 2 + 1) - 1)) ^ n) /
  (Cr - ((-Cr + Real.sqrt (Cr ^ 2 + 1) + 1) / (Cr + Real.sqrt (Cr ^ 2 + 1) - 1)) ^ n)

theorem one_le_sqrt_sq_add_one (Cr : ℝ) : 1 ≤ Real.sqrt (Cr ^ 2 + 1) := by
  have h1 : Real.sqrt (Cr ^ 2 + 1) ^ 2 = Cr ^ 2 + 1 := Real.sq_sqrt (by positivity)
  nlinarith [Real.sqrt_nonneg (Cr ^ 2 + 1), sq_nonneg Cr]

theorem lt_sqrt_sq_add_one (Cr : ℝ) (h : 0 ≤ Cr) : Cr < Real.sqrt (Cr ^ 2 + 1) := by
  have h1 : Cr = Real.sqrt (Cr ^ 2) := by
    rw [Real.sqrt_sq h]
  rw [h1]
  exact Real.sqrt_lt_sqrt (sq_nonneg Cr) (by linarith [Real.sq_sqrt (sq_nonneg Cr)])

theorem ST_a_gt_one {Cr : ℝ} (h0 : 0 < Cr) (h1 : Cr < 1) :
    1 < (-Cr + Real.sqrt (Cr ^ 2 + 1) + 1) / (Cr + Real.sqrt (Cr ^ 2 + 1) - 1) := by
  have hs := one_le_sqrt_sq_add_one Cr
  have hden : 0 < Cr + Real.sqrt (Cr ^ 2 + 1) - 1 := by linarith
  rw [one_lt_div hden]
  linarith

theorem ST_max_effectiveness_ok {Cr : ℝ} {n : ℕ} (h0 : 0 < Cr) (h1 : Cr < 1)
    (hn : 1 ≤ n) : ST_max_effectiveness Cr n = .ok (ST_maxVal Cr n) := by
  have hs := one_le_sqrt_sq_add_one Cr
  have hden : Cr + Real.sqrt (Cr ^ 2 + 1) - 1 ≠ 0 := ne_of_gt (by linarith)
  have ha := ST_a_gt_one h0 h1
  have han : 1 < ((-Cr + Real.sqrt (Cr ^ 2 + 1) + 1) /
      (Cr + Real.sqrt (Cr ^ 2 + 1) - 1)) ^ n :=
    one_lt_pow₀ ha (by omega)
  have hd2 : Cr - ((-Cr + Real.sqrt (Cr ^ 2 + 1) + 1) /
      (Cr + Real.sqrt (Cr ^ 2 + 1) - 1)) ^ n ≠ 0 := by
    intro hc
    nlinarith
  simp only [ST_max_effectiveness, pdiv_ok hden, ok_bind, pdiv_ok hd2]
  rw [ST_maxVal]
  congr 1
  ring

theorem ST_maxVal_pos_lt_one {Cr : ℝ} {n : ℕ} (h0 : 0 < Cr) (h1 : Cr < 1)
    (hn : 1 ≤ n) : 0 < ST_maxVal Cr n ∧ ST_maxVal Cr n < 1 := by
  have ha := ST_a_gt_one h0 h1
  have han : 1 < ((-Cr + Real.sqrt (Cr ^ 2 + 1) + 1) /
      (Cr + Real.sqrt (Cr ^ 2 + 1) - 1)) ^ n :=
    one_lt_pow₀ ha (by omega)
  set A := ((-Cr + Real.sqrt (Cr ^ 2 + 1) + 1) /
      (Cr + Real.sqrt (Cr ^ 2 + 1) - 1)) ^ n with hA
  have hrw : ST_maxVal Cr n = (A - 1) / (A - Cr) := by
    rw [ST_maxVal, ← hA, ← neg_div_neg_eq]
    ring_nf
  rw [hrw]
  constructor
  · exact div_pos (by linarith) (by linarith)
  · rw [div_lt_one (by linarith)]
    linarith

theorem ST_maxVal_07_5_bounds :
    |ST_maxVal 0.7 5 - 0.974123| < 1e-6 ∧ ST_maxVal 0.7 5 < 0.99 := by
  have hsq : ((0.7:ℝ) ^ 2 + 1) = 1.49 := by norm_num
  have hs2 : Real.sqrt 1.49 ^ 2 = 1.49 := Real.sq_sqrt (by norm_num)
  have hs0 : (0:ℝ) ≤ Real.sqrt 1.49 := Real.sqrt_nonneg _
  have hs_lo : (1.2206555 : ℝ) < Real.sqrt 1.49 := by nlinarith
  have hs_hi : Real.sqrt 1.49 < 1.2206556 := by nlinarith
  set s : ℝ := Real.sqrt 1.49 with hs_def
  have hden : (0:ℝ) < 0.7 + s - 1 := by linarith
  set a : ℝ := (-0.7 + s + 1) / (0.7 + s - 1) with ha_def
  have ha_lo : (1.651709 : ℝ) < a := by
    rw [ha_def, lt_div_iff hden]
    linarith
  have ha_hi : a < 1.651710 := by
    rw [ha_def, div_lt_iff hden]
    linarith
  have ha0 : (0:ℝ) ≤ a := by linarith
  set t : ℝ := a ^ 5 with ht_def
  have ht_lo : (12.293277 : ℝ) < t := by
    calc (12.293277 : ℝ) < 1.651709 ^ 5 := by norm_num
    _ < t := by
      rw [ht_def]
      exact pow_lt_pow_left ha_lo (by norm_num) (by norm_num)
  have ht_hi : t < 12.293315 := by
    calc t < 1.651710 ^ 5 := by
          rw [ht_def]
          exact pow_lt_pow_left ha_hi ha0 (by norm_num)
    _ < 12.293315 := by norm_num
  have hm : ST_maxVal 0.7 5 = (t - 1) / (t - 0.7) := by
    rw [ST_maxVal, hsq, ← hs_def, ← ha_def, ← ht_def, ← neg_div_neg_eq]
    ring_nf
  have htd : (0:ℝ) < t - 0.7 := by linarith
  rw [hm]
  refine ⟨abs_lt.mpr ⟨?_, ?_⟩, ?_⟩
  · rw [lt_sub_iff_add_lt, lt_div_iff htd]
    linarith
  · rw [sub_lt_iff_lt_add, div_lt_iff htd]
    linarith
  · rw [div_lt_iff htd]
    linarith

/-- C2, amended: the analytic feasibility guard holds for the parallel,
mixed-Cmin-crossflow, mixed-Cmax-crossflow and N-shell S&T
configurations (the claim wrongly also includes counterflow, which has
no guard at all — see the counterexample).  Whenever the requested
effectiveness lies strictly between the closed-form maximum and 1 (and
`Cr ∈ (0,1]`, with `Cr < 1` for S&T), `NTU_from_effectiveness` fails
with `EffectivenessUnattainable` carrying the analytically computed
maximum; and `NTU_from_effectiveness(0.99, Cr=0.7, '5S&T')` fails
reporting a maximum within 1e-6 of 0.974123. -/
theorem C2_feasibility_guard_amended (effectiveness Cr : ℝ) (n : ℕ)
    (hn : 1 ≤ n) (hCr : 0 < Cr) (hCr1 : Cr ≤ 1) (heff1 : effectiveness < 1) :
    (1 / (Cr + 1) < effectiveness →
      NTU_from_effectiveness effectiveness Cr .parallel
        = .error (.effectivenessUnattainable (1 / (Cr + 1)))) ∧
    (1 - Real.exp (-1 / Cr) < effectiveness →
      NTU_from_effectiveness effectiveness Cr .crossflowMixedCmin
        = .error (.effectivenessUnattainable (1 - Real.exp (-1 / Cr)))) ∧
    ((1 - Real.exp (-Cr)) / Cr < effectiveness →
      NTU_from_effectiveness effectiveness Cr .crossflowMixedCmax
        = .error (.effectivenessUnattainable
            ((Real.exp Cr - 1) * Real.exp (-Cr) / Cr))) ∧
    (Cr < 1 → ST_maxVal Cr n < effectiveness →
      NTU_from_effectiveness effectiveness Cr (.ST n)
        = .error (.effectivenessUnattainable (ST_maxVal Cr n))) ∧
    (NTU_from_effectiveness 0.99 0.7 (.ST 5)
        = .error (.effectivenessUnattainable (ST_maxVal 0.7 5)) ∧
      |ST_maxVal 0.7 5 - 0.974123| < 1e-6) := by
  have hnlt : ¬ (1:ℝ) < Cr := not_lt.mpr hCr1
  have hST : ∀ e Cr' : ℝ, ∀ m : ℕ, 1 ≤ m → 0 < Cr' → Cr' < 1 → e < 1 →
      ST_maxVal Cr' m < e →
      NTU_from_effectiveness e Cr' (.ST m)
        = .error (.effectivenessUnattainable (ST_maxVal Cr' m)) := by
    intro e Cr' m hm hCr' hCr1' he1 hlt
    have hnlt' : ¬ (1:ℝ) < Cr' := not_lt.mpr hCr1'.le
    have hmR : ((m : ℝ)) ≠ 0 := by positivity
    have hmax := ST_maxVal_pos_lt_one hCr' hCr1' hm
    have he0 : 0 < e := lt_trans hmax.1 hlt
    have heCr : e * Cr' < 1 := by nlinarith
    have he1' : e - 1 ≠ 0 := by linarith [he1]
    -- the log-ratio argument r = (e*Cr' - 1)/(e - 1) = (1 - e*Cr')/(1 - e)
    have hr_pos : 0 < (e * Cr' - 1) / (e - 1) :=
      div_pos_of_neg_of_neg (by linarith) (by linarith)
    set s : ℝ := Real.sqrt (Cr' ^ 2 + 1) with hs_def
    have hs1 : 1 ≤ s := one_le_sqrt_sq_add_one Cr'
    have hsd : 0 < Cr' + s - 1 := by linarith
    set a : ℝ := (-Cr' + s + 1) / (Cr' + s - 1) with ha_def
    have ha1 : 1 < a := ST_a_gt_one hCr' hCr1'
    have han : 1 < a ^ m := one_lt_pow₀ ha1 (by omega)
    -- the key inequality: r > a^m, equivalent to e > ST_maxVal
    have hkey : a ^ m < (e * Cr' - 1) / (e - 1) := by
      have hmv : ST_maxVal Cr' m = (a ^ m - 1) / (a ^ m - Cr') := by
        rw [ST_maxVal, ← hs_def, ← ha_def, ← neg_div_neg_eq]
        ring_nf
      rw [hmv] at hlt
      have h1 : (a ^ m - 1) < e * (a ^ m - Cr') := by
        have := (div_lt_iff (by linarith : (0:ℝ) < a ^ m - Cr')).mp hlt
        linarith [this]
      have h2 : (e * Cr' - 1) / (e - 1) = (1 - e * Cr') / (1 - e) := by
        rw [← neg_div_neg_eq]; ring_nf
      rw [h2, lt_div_iff (by linarith : (0:ℝ) < 1 - e)]
      nlinarith
    have hrpos' : (0:ℝ) < (e * Cr' - 1) / (e - 1) := hr_pos
    -- F = r ** (1/m) satisfies a < F
    set F : ℝ := ((e * Cr' - 1) / (e - 1)) ^ ((1:ℝ) / (m:ℝ)) with hF_def
    have haF : a < F := by
      have h1 : a = (a ^ m) ^ ((1:ℝ) / (m:ℝ)) := by
        rw [← Real.rpow_natCast a m, ← Real.rpow_mul (by linarith : (0:ℝ) ≤ a)]
        rw [mul_one_div, div_self hmR, Real.rpow_one]
      rw [h1, hF_def]
      exact Real.rpow_lt_rpow (by positivity) hkey (by positivity)
    have hF1 : 1 < F := lt_trans ha1 haF
    have hFCr : 0 < F - Cr' := by linarith
    -- e1 = (F-1)/(F-Cr') lies in (0,1)
    set e1 : ℝ := (F - 1) / (F - Cr') with he1_def
    have he1pos : 0 < e1 := div_pos (by linarith) hFCr
    have he1lt : e1 < 1 := by
      rw [he1_def, div_lt_one hFCr]
      linarith
    -- E = (2/e1 - (1+Cr'))/s lies in (0, 1)
    set E : ℝ := (2 / e1 - (1 + Cr')) / s with hE_def
    have hspos : (0:ℝ) < s := by linarith
    have hE_pos : 0 < E := by
      rw [hE_def]
      apply div_pos _ hspos
      have : 2 < 2 / e1 := by
        rw [lt_div_iff he1pos]; nlinarith
      linarith
    have hE_lt : E < 1 := by
      rw [hE_def, div_lt_one hspos, sub_lt_iff_lt_add, div_lt_iff he1pos,
        he1_def]
      have hkey2 : (s + 1 - Cr') < F * (Cr' + s - 1) := by
        have := (div_lt_iff hsd).mp haF
        linarith [this]
      rw [← mul_div_assoc, lt_div_iff hFCr]
      nlinarith
    have hgle : (E - 1) / (E + 1) ≤ 0 :=
      le_of_lt (div_neg_of_neg_of_pos (by linarith) (by linarith))
    have hE1 : E + 1 ≠ 0 := by positivity
    -- now run the code
    simp only [NTU_from_effectiveness, if_neg hnlt']
    rw [show Real.sqrt (1 + Cr' ^ 2) = s by rw [hs_def, add_comm]]
    simp only [pdiv_ok hmR, ok_bind, pdiv_ok he1', ppow_ok hrpos', ← hF_def,
      pdiv_ok (ne_of_gt hFCr), ← he1_def, pdiv_ok (ne_of_gt he1pos),
      ← hE_def, pdiv_ok hE1, if_pos hgle,
      ST_max_effectiveness_ok hCr' hCr1' hm]
  refine ⟨?_, ?_, ?_, ?_, ?_⟩
  · intro hp
    have hCp : (0:ℝ) < Cr + 1 := by linarith
    have hguard : 1 < effectiveness * (1 + Cr) := by
      have := (div_lt_iff hCp).mp hp
      nlinarith
    simp only [NTU_from_effectiveness, if_neg hnlt, if_pos hguard,
      pdiv_ok (ne_of_gt hCp), ok_bind]
  · intro hp
    have h1e : 0 < 1 - effectiveness := by linarith
    have hlog : Real.log (1 - effectiveness) < -1 / Cr := by
      have h2 : 1 - effectiveness < Real.exp (-1 / Cr) := by linarith
      calc Real.log (1 - effectiveness) < Real.log (Real.exp (-1 / Cr)) :=
            Real.log_lt_log h1e h2
        _ = -1 / Cr := Real.log_exp _
    have hguard : Cr * Real.log (1 - effectiveness) < -1 := by
      have h2 := (mul_lt_mul_left hCr).mpr hlog
      have h3 : Cr * (-1 / Cr) = -1 := by field_simp
      rw [h3] at h2
      exact h2
    simp only [NTU_from_effectiveness, if_neg hnlt, plog_ok h1e, ok_bind,
      if_pos hguard, pdiv_ok hCr.ne', ok_bind, neg_div]
  · intro hp
    have heCr : effectiveness * Cr < 1 := by nlinarith
    have h1e : 0 < 1 - effectiveness * Cr := by linarith
    have hlog : Real.log (1 - effectiveness * Cr) < -Cr := by
      have h2 : 1 - effectiveness * Cr < Real.exp (-Cr) := by
        have := (div_lt_iff hCr).mp hp
        nlinarith
      calc Real.log (1 - effectiveness * Cr)
            < Real.log (Real.exp (-Cr)) := Real.log_lt_log h1e h2
        _ = -Cr := Real.log_exp _
    have hguard : 1 / Cr * Real.log (1 - effectiveness * Cr) < -1 := by
      rw [one_div, ← div_eq_inv_mul, div_lt_iff hCr]
      nlinarith
    simp only [NTU_from_effectiveness, if_neg hnlt, pdiv_ok hCr.ne',
      ok_bind, plog_ok h1e, if_pos hguard, pdiv_ok hCr.ne']
  · intro hCrlt hlt
    exact hST effectiveness Cr n hn hCr hCrlt heff1 hlt
  · have hb := ST_maxVal_07_5_bounds
    refine ⟨?_, hb.1⟩
    exact hST 0.99 0.7 5 (by norm_num) (by norm_num) (by norm_num)
      (by norm_num) (by linarith [hb.1, abs_lt.mp hb.1])

/-- Witness for C2 amended at the spec's own concrete instance
`(0.99, Cr=0.7, '5S&T')`. -/
theorem C2_feasibility_guard_amended_witness :
    NTU_from_effectiveness 0.99 0.7 (.ST 5)
      = .error (.effectivenessUnattainable (ST_maxVal 0.7 5)) :=
  (C2_feasibility_guard_amended 0.99 0.7 5 (by norm_num) (by norm_num)
    (by norm_num) (by norm_num)).2.2.2.2.1

theorem roundTrip_counterflow (NTU Cr : ℝ) (hN : 0 < NTU) (h0 : 0 ≤ Cr)
    (h1 : Cr ≤ 1) : roundTrip NTU Cr .counterflow = .ok NTU := by
  have hnlt : ¬ (1:ℝ) < Cr := not_lt.mpr h1
  rcases lt_or_eq_of_le h1 with hlt | heq
  · -- Cr < 1: the general closed form and its exact inverse
    set E : ℝ := Real.exp (-NTU * (1 - Cr)) with hE_def
    have hE0 : 0 < E := Real.exp_pos _
    have hE1 : E < 1 := by
      rw [hE_def, Real.exp_lt_one_iff]
      nlinarith
    have hden : 1 - Cr * E ≠ 0 := by nlinarith
    set eps : ℝ := (1 - E) / (1 - Cr * E) with heps_def
    have heps0 : 0 < eps := div_pos (by linarith) (by nlinarith)
    have heps1 : eps < 1 := by
      rw [heps_def, div_lt_one (by nlinarith)]
      nlinarith
    have hd1 : Cr - 1 ≠ 0 := by linarith
    have hd2 : eps * Cr - 1 ≠ 0 := by nlinarith
    have hr : (eps - 1) / (eps * Cr - 1) = E := by
      rw [div_eq_iff hd2, heps_def]
      field_simp
      ring
    simp only [roundTrip, effectiveness_from_NTU, if_neg hnlt, if_pos hlt,
      pdiv_ok hden, ← heps_def, ok_bind, NTU_from_effectiveness,
      pdiv_ok hd1, pdiv_ok hd2, hr, plog_ok hE0, hE_def, Real.log_exp]
    congr 1
    field_simp
    ring
  · -- Cr = 1: the NTU/(1+NTU) limit and its inverse eps/(1-eps)
    subst heq
    have hd1 : (1:ℝ) + NTU ≠ 0 := by positivity
    have hlt' : ¬ (1:ℝ) < 1 := lt_irrefl 1
    have hd2 : 1 - NTU / (1 + NTU) ≠ 0 := by
      rw [sub_ne_zero]
      intro hc
      rw [eq_div_iff hd1] at hc
      linarith
    simp only [roundTrip, effectiveness_from_NTU, if_neg hnlt, if_neg hlt',
      pdiv_ok hd1, ok_bind, NTU_from_effectiveness, pdiv_ok hd2]
    congr 1
    rw [div_eq_iff hd2]
    field_simp

theorem roundTrip_parallel (NTU Cr : ℝ) (hN : 0 < NTU) (h0 : 0 ≤ Cr)
    (h1 : Cr ≤ 1) : roundTrip NTU Cr .parallel = .ok NTU := by
  have hnlt : ¬ (1:ℝ) < Cr := not_lt.mpr h1
  have hCp : (0:ℝ) < 1 + Cr := by linarith
  set E : ℝ := Real.exp (-NTU * (1 + Cr)) with hE_def
  have hE0 : 0 < E := Real.exp_pos _
  set eps : ℝ := (1 - E) / (1 + Cr) with heps_def
  have hmul : eps * (1 + Cr) = 1 - E := by
    rw [heps_def, div_mul_cancel₀]
    exact ne_of_gt hCp
  have hguard : ¬ 1 < eps * (1 + Cr) := by
    rw [hmul]
    linarith
  have harg : 1 - eps * (1 + Cr) = E := by rw [hmul]; ring
  simp only [roundTrip, effectiveness_from_NTU, if_neg hnlt,
    pdiv_ok (ne_of_gt hCp), ← heps_def, ok_bind, NTU_from_effectiveness,
    if_neg hguard, harg, plog_ok hE0, hE_def, Real.log_exp, ok_bind]
  congr 1
  field_simp

theorem roundTrip_boiler (NTU Cr : ℝ) (h1 : Cr ≤ 1) :
    roundTrip NTU Cr .boiler = .ok NTU ∧
    roundTrip NTU Cr .condenser = .ok NTU := by
  have hnlt : ¬ (1:ℝ) < Cr := not_lt.mpr h1
  have harg : 1 - (1 - Real.exp (-NTU)) = Real.exp (-NTU) := by ring
  constructor <;>
    simp [roundTrip, effectiveness_from_NTU, hnlt, NTU_from_effectiveness,
      harg, plog_ok (Real.exp_pos (-NTU)), Real.log_exp]

theorem roundTrip_mixedCmin (NTU Cr : ℝ) (hCr : 0 < Cr) (h1 : Cr ≤ 1) :
    roundTrip NTU Cr .crossflowMixedCmin = .ok NTU := by
  have hnlt : ¬ (1:ℝ) < Cr := not_lt.mpr h1
  set X : ℝ := 1 - Real.exp (-Cr * NTU) with hX_def
  have hX1 : X < 1 := by
    have := Real.exp_pos (-Cr * NTU)
    rw [hX_def]; linarith
  set eps : ℝ := 1 - Real.exp (-Cr⁻¹ * X) with heps_def
  have harg : 1 - eps = Real.exp (-Cr⁻¹ * X) := by rw [heps_def]; ring
  have hlogv : Real.log (1 - eps) = -Cr⁻¹ * X := by rw [harg, Real.log_exp]
  have hmul : Cr * Real.log (1 - eps) = -X := by
    rw [hlogv]
    field_simp
    ring
  have hguard : ¬ Cr * Real.log (1 - eps) < -1 := by
    rw [hmul]
    linarith
  have harg2 : Cr * Real.log (1 - eps) + 1 = Real.exp (-Cr * NTU) := by
    rw [hmul, hX_def]; ring
  simp only [roundTrip, effectiveness_from_NTU, if_neg hnlt, if_neg hCr.ne',
    ← hX_def, ← heps_def, ok_bind, pureHX_bind, pureHX_eq_ok,
    NTU_from_effectiveness,
    plog_ok (by rw [harg]; exact Real.exp_pos _ : 0 < 1 - eps), ok_bind,
    if_neg hguard, pdiv_ok hCr.ne', harg2, plog_ok (Real.exp_pos (-Cr * NTU)),
    Real.log_exp]
  congr 1
  field_simp

theorem roundTrip_mixedCmax (NTU Cr : ℝ) (hCr : 0 < Cr) (h1 : Cr ≤ 1) :
    roundTrip NTU Cr .crossflowMixedCmax = .ok NTU := by
  have hnlt : ¬ (1:ℝ) < Cr := not_lt.mpr h1
  set Y : ℝ := 1 - Real.exp (-NTU) with hY_def
  have hY1 : Y < 1 := by
    have := Real.exp_pos (-NTU)
    rw [hY_def]; linarith
  set eps : ℝ := 1 / Cr * (1 - Real.exp (-Cr * Y)) with heps_def
  have hmul : eps * Cr = 1 - Real.exp (-Cr * Y) := by
    rw [heps_def]
    field_simp
  have harg : 1 - eps * Cr = Real.exp (-Cr * Y) := by rw [hmul]; ring
  have hlogv : Real.log (1 - eps * Cr) = -Cr * Y := by rw [harg, Real.log_exp]
  have hcl : 1 / Cr * Real.log (1 - eps * Cr) = -Y := by
    rw [hlogv]
    field_simp
    ring
  have hguard : ¬ 1 / Cr * Real.log (1 - eps * Cr) < -1 := by
    rw [hcl]
    linarith
  have harg2 : 1 + 1 / Cr * Real.log (1 - eps * Cr) = Real.exp (-NTU) := by
    rw [hcl, hY_def]; ring
  simp only [roundTrip, effectiveness_from_NTU, if_neg hnlt,
    pdiv_ok hCr.ne', ← hY_def, ok_bind, pureHX_bind, pureHX_eq_ok,
    ← heps_def, NTU_from_effectiveness,
    plog_ok (by rw [harg]; exact Real.exp_pos _ : 0 < 1 - eps * Cr),
    if_neg hguard, harg2, plog_ok (Real.exp_pos (-NTU)), Real.log_exp]
  norm_num

theorem crossflow_eff_strictMono (Cr : ℝ) (hCr : 0 < Cr) {x y : ℝ}
    (hx : 0 < x) (hxy : x < y) : crossflow_eff Cr x < crossflow_eff Cr y := by
  have h22 : x ^ (0.22:ℝ) < y ^ (0.22:ℝ) :=
    Real.rpow_lt_rpow hx.le hxy (by norm_num)
  have h78 : x ^ (0.78:ℝ) < y ^ (0.78:ℝ) :=
    Real.rpow_lt_rpow hx.le hxy (by norm_num)
  have hp22x : 0 < x ^ (0.22:ℝ) := Real.rpow_pos_of_pos hx _
  have hp78x : 0 < x ^ (0.78:ℝ) := Real.rpow_pos_of_pos hx _
  have hqx : Real.exp (-Cr * x ^ (0.78:ℝ)) < 1 := by
    rw [Real.exp_lt_one_iff]
    nlinarith
  have hq : Real.exp (-Cr * y ^ (0.78:ℝ)) < Real.exp (-Cr * x ^ (0.78:ℝ)) := by
    rw [Real.exp_lt_exp]
    nlinarith
  have hmono : x ^ (0.22:ℝ) * (1 - Real.exp (-Cr * x ^ (0.78:ℝ)))
      < y ^ (0.22:ℝ) * (1 - Real.exp (-Cr * y ^ (0.78:ℝ))) :=
    mul_lt_mul'' h22 (by linarith) hp22x.le (by linarith)
  have hrw : ∀ z : ℝ, 1 / Cr * z ^ (0.22:ℝ) * (Real.exp (-Cr * z ^ (0.78:ℝ)) - 1)
      = -(1 / Cr * (z ^ (0.22:ℝ) * (1 - Real.exp (-Cr * z ^ (0.78:ℝ))))) := by
    intro z; ring
  rw [crossflow_eff, crossflow_eff, sub_lt_sub_iff_left, Real.exp_lt_exp,
    hrw x, hrw y, neg_lt_neg_iff]
  have hCr' : 0 < 1 / Cr := by positivity
  exact (mul_lt_mul_left hCr').mpr hmono

theorem roundTrip_crossflow (NTU Cr : ℝ) (hCr : 0 < Cr) (h1 : Cr ≤ 1)
    (hlo : 1e-7 ≤ NTU) (hhi : NTU ≤ 1e5) :
    roundTrip NTU Cr .crossflow = .ok NTU := by
  have hnlt : ¬ (1:ℝ) < Cr := not_lt.mpr h1
  have hN : 0 < NTU := lt_of_lt_of_le (by norm_num) hlo
  have hfwd : effectiveness_from_NTU NTU Cr .crossflow
      = .ok (crossflow_eff Cr NTU) := by
    simp only [effectiveness_from_NTU, if_neg hnlt, pdiv_ok hCr.ne', ok_bind,
      ppow_ok hN, pureHX_eq_ok, crossflow_eff]
  rw [roundTrip, hfwd, ok_bind]
  simp only [NTU_from_effectiveness, if_neg hnlt, if_neg hCr.ne', ridder]
  have hex : ∃ x : ℝ, 1e-7 ≤ x ∧ x ≤ 1e5 ∧
      (fun N => crossflow_eff Cr N - crossflow_eff Cr NTU) x = 0 :=
    ⟨NTU, hlo, hhi, by simp⟩
  rw [dif_pos hex]
  congr 1
  obtain ⟨h1c, h2c, h3c⟩ := hex.choose_spec
  have hc0 : 0 < hex.choose := lt_of_lt_of_le (by norm_num) h1c
  have heq : crossflow_eff Cr hex.choose = crossflow_eff Cr NTU := by
    have := h3c
    simpa [sub_eq_zero] using this
  rcases lt_trichotomy hex.choose NTU with h | h | h
  · exact absurd heq (ne_of_lt (crossflow_eff_strictMono Cr hCr hc0 h))
  · exact h
  · exact absurd heq (ne_of_gt (crossflow_eff_strictMono Cr hCr hN h))

theorem roundTrip_ST (NTU Cr : ℝ) (n : ℕ) (hn : 1 ≤ n) (hN : 0 < NTU)
    (h0 : 0 ≤ Cr) (h1 : Cr < 1) : roundTrip NTU Cr (.ST n) = .ok NTU := by
  have hnlt : ¬ (1:ℝ) < Cr := not_lt.mpr h1.le
  have hnR : ((n:ℝ)) ≠ 0 := by positivity
  have hnRpos : (0:ℝ) < (n:ℝ) := by positivity
  set s : ℝ := Real.sqrt (1 + Cr ^ 2) with hs_def
  have hs1 : 1 ≤ s := by rw [hs_def, add_comm]; exact one_le_sqrt_sq_add_one Cr
  have hspos : 0 < s := lt_of_lt_of_le one_pos hs1
  set t : ℝ := Real.exp (-(NTU / (n:ℝ)) * s) with ht_def
  have ht0 : 0 < t := Real.exp_pos _
  have ht1 : t < 1 := by
    rw [ht_def, Real.exp_lt_one_iff]
    have hq : 0 < NTU / (n:ℝ) := div_pos hN hnRpos
    nlinarith
  have hbotpos : (0:ℝ) < 1 - t := by linarith
  have hbot : 1 - t ≠ 0 := ne_of_gt hbotpos
  set R : ℝ := s * (1 + t) / (1 - t) with hR_def
  have hRgt : s < R := by
    rw [hR_def, lt_div_iff hbotpos]
    nlinarith
  have hRpos : 0 < R := lt_trans hspos hRgt
  have hDpos : 0 < 1 + Cr + R := by linarith
  set e1 : ℝ := 2 / (1 + Cr + R) with he1_def
  have he1pos : 0 < e1 := div_pos two_pos hDpos
  have he1lt : e1 < 1 := by
    rw [he1_def, div_lt_one hDpos]
    linarith
  have h1e1 : 0 < 1 - e1 := by linarith
  set x : ℝ := (1 - e1 * Cr) / (1 - e1) with hx_def
  have hx1 : 1 < x := by
    rw [hx_def, lt_div_iff h1e1]
    nlinarith
  have hx0 : 0 < x := lt_trans one_pos hx1
  have hxCr : 0 < x - Cr := by linarith
  -- the inverse recovers NTU from any eps whose log-ratio is x^n
  have hinv : ∀ eps : ℝ, eps - 1 ≠ 0 →
      (eps * Cr - 1) / (eps - 1) = x ^ n →
      NTU_from_effectiveness eps Cr (.ST n) = .ok NTU := by
    intro eps heps1 heps_r
    have hxn : (0:ℝ) < x ^ n := pow_pos hx0 n
    have hFx : (x ^ n : ℝ) ^ ((1:ℝ) / (n:ℝ)) = x := by
      rw [← Real.rpow_natCast x n, ← Real.rpow_mul hx0.le, mul_one_div,
        div_self hnR, Real.rpow_one]
    have he1x : (x - 1) / (x - Cr) = e1 := by
      rw [div_eq_iff (ne_of_gt hxCr), hx_def]
      field_simp
      ring
    have h2e1 : 2 / e1 = 1 + Cr + R := by
      rw [he1_def]
      field_simp
    have hEeq : (2 / e1 - (1 + Cr)) / s = (1 + t) / (1 - t) := by
      rw [h2e1, hR_def]
      field_simp
      ring
    have hEpos : 0 < (1 + t) / (1 - t) := div_pos (by linarith) hbotpos
    have hEne : (1 + t) / (1 - t) + 1 ≠ 0 := by positivity
    have hg : ((1 + t) / (1 - t) - 1) / ((1 + t) / (1 - t) + 1) = t := by
      rw [div_eq_iff hEne]
      field_simp
      ring
    have hguard : ¬ t ≤ 0 := not_le.mpr ht0
    have hlogt : Real.log t = -(NTU / (n:ℝ)) * s := by
      rw [ht_def, Real.log_exp]
    simp only [NTU_from_effectiveness, if_neg hnlt, pdiv_ok hnR, ok_bind,
      pdiv_ok heps1, heps_r, ppow_ok hxn, hFx, pdiv_ok (ne_of_gt hxCr),
      he1x, pdiv_ok (ne_of_gt he1pos), ← hs_def, hEeq, hg,
      pdiv_ok hEne, if_neg hguard, hlogt, pureHX_eq_ok]
    congr 1
    field_simp
  -- the forward direction, split on the shell count
  rcases eq_or_lt_of_le hn with hone | hmany
  · -- one shell: the forward value is e1 itself
    have hone' : n = 1 := hone.symm
    subst hone'
    have hfwd : effectiveness_from_NTU NTU Cr (.ST 1) = .ok e1 := by
      have hns : ¬ (1:ℕ) < 1 := lt_irrefl 1
      simp only [effectiveness_from_NTU, if_neg hnlt, Nat.cast_one,
        pdiv_ok (one_ne_zero : (1:ℝ) ≠ 0), ok_bind, ← hs_def]
      rw [show NTU / (1:ℝ) = NTU / ((1:ℕ):ℝ) by norm_num, ← ht_def]
      simp only [pdiv_ok hbot, ok_bind, ← hR_def, pdiv_ok (ne_of_gt hDpos),
        ← he1_def, if_neg hns, pureHX_eq_ok]
    rw [roundTrip, hfwd, ok_bind]
    apply hinv e1 (by linarith)
    rw [pow_one, hx_def, ← neg_div_neg_eq]
    congr 1 <;> ring
  · -- several shells: the forward value is (x^n - 1)/(x^n - Cr)
    have hxn1 : 1 < x ^ n := one_lt_pow₀ hx1 (by omega)
    have hTCr : x ^ n - Cr ≠ 0 := by intro hc; nlinarith
    have hfwd : effectiveness_from_NTU NTU Cr (.ST n)
        = .ok ((x ^ n - 1) / (x ^ n - Cr)) := by
      simp only [effectiveness_from_NTU, if_neg hnlt, pdiv_ok hnR, ok_bind,
        ← hs_def, ← ht_def, pdiv_ok hbot, ← hR_def,
        pdiv_ok (ne_of_gt hDpos), ← he1_def, if_pos hmany,
        pdiv_ok (ne_of_gt h1e1), ← hx_def, pdiv_ok hTCr]
    rw [roundTrip, hfwd, ok_bind]
    set eps : ℝ := (x ^ n - 1) / (x ^ n - Cr) with heps_def
    have heps_lt : eps < 1 := by
      rw [heps_def, div_lt_one (by nlinarith)]
      linarith
    apply hinv eps (by linarith)
    rw [div_eq_iff (by linarith : eps - 1 ≠ 0), heps_def]
    field_simp
    ring

/-- C1 counterexample: the claim quantifies over every `Cr ∈ [0,1]`, but
at `Cr = 0` the mixed-Cmin crossflow forward map itself raises
`ZeroDivisionError` (`Cr**-1`), so the round trip errors instead of
returning NTU (the same happens for both other crossflow variants at
`Cr = 0`, and for S&T the inverse divides 0/0 at `Cr = 1`). -/
theorem C1_counterexample :
    roundTrip 1 0 .crossflowMixedCmin = .error .zeroDivision := by
  norm_num [roundTrip, effectiveness_from_NTU]

/-- C1, amended: the round trip
`NTU_from_effectiveness(effectiveness_from_NTU(NTU, Cr, config), Cr, config)`
returns exactly `NTU` (error 0, hence within every relative tolerance,
in particular 1e-6, and 1e-5 for the root-finder-backed
crossflow-unmixed case) for every `NTU > 0`: for counterflow, parallel,
boiler and condenser with any `Cr ∈ [0,1]`; for N-shell S&T with
`Cr ∈ [0,1)` (at `Cr = 1` the inverse divides 0/0); for the two
mixed crossflow variants with `Cr ∈ (0,1]` (at `Cr = 0` the forward map
divides by zero); and for crossflow-unmixed with `Cr ∈ (0,1]` and
`NTU` inside the root-finder bracket `[1e-7, 1e5]`. -/
theorem C1_roundtrip_amended (NTU Cr : ℝ) (n : ℕ) (hn : 1 ≤ n)
    (hN : 0 < NTU) (h0 : 0 ≤ Cr) (h1 : Cr ≤ 1) :
    roundTrip NTU Cr .counterflow = .ok NTU ∧
    roundTrip NTU Cr .parallel = .ok NTU ∧
    roundTrip NTU Cr .boiler = .ok NTU ∧
    roundTrip NTU Cr .condenser = .ok NTU ∧
    (Cr < 1 → roundTrip NTU Cr (.ST n) = .ok NTU) ∧
    (0 < Cr → roundTrip NTU Cr .crossflowMixedCmin = .ok NTU) ∧
    (0 < Cr → roundTrip NTU Cr .crossflowMixedCmax = .ok NTU) ∧
    (0 < Cr → 1e-7 ≤ NTU → NTU ≤ 1e5 → roundTrip NTU Cr .crossflow = .ok NTU) := by
  refine ⟨roundTrip_counterflow NTU Cr hN h0 h1,
    roundTrip_parallel NTU Cr hN h0 h1,
    (roundTrip_boiler NTU Cr h1).1,
    (roundTrip_boiler NTU Cr h1).2,
    fun hlt => roundTrip_ST NTU Cr n hn hN h0 hlt,
    fun hpos => roundTrip_mixedCmin NTU Cr hpos h1,
    fun hpos => roundTrip_mixedCmax NTU Cr hpos h1,
    fun hpos hlo hhi => roundTrip_crossflow NTU Cr hpos h1 hlo hhi⟩

/-- Witness for C1 amended at `NTU = 1`, `Cr = 1/2`, two shells. -/
theorem C1_roundtrip_amended_witness :
    roundTrip 1 (1/2) .counterflow = .ok 1 ∧
    roundTrip 1 (1/2) (.ST 2) = .ok 1 ∧
    roundTrip 1 (1/2) .crossflow = .ok 1 := by
  have h := C1_roundtrip_amended 1 (1/2) 2 (by norm_num) (by norm_num)
    (by norm_num) (by norm_num)
  exact ⟨h.1, h.2.2.2.2.1 (by norm_num),
    h.2.2.2.2.2.2.2 (by norm_num) (by norm_num) (by norm_num)⟩

/-- `calc_Cmin(mh, mc, Cph, Cpc)` from `ht/hx.py`. -/
noncomputable def calc_Cmin (mh mc Cph Cpc : ℝ) : ℝ :=
  min (mh * Cph) (mc * Cpc)

/-- `calc_Cmax(mh, mc, Cph, Cpc)` from `ht/hx.py`. -/
noncomputable def calc_Cmax (mh mc Cph Cpc : ℝ) : ℝ :=
  max (mh * Cph) (mc * Cpc)

/-- `calc_Cr(mh, mc, Cph, Cpc) = Cmin/Cmax` from `ht/hx.py`. -/
noncomputable def calc_Cr (mh mc Cph Cpc : ℝ) : Except HXError ℝ :=
  pdiv (calc_Cmin mh mc Cph Cpc) (calc_Cmax mh mc Cph Cpc)

/-- `NTU_from_UA(UA, Cmin) = UA/Cmin` from `ht/hx.py`. -/
noncomputable def NTU_from_UA (UA Cmin : ℝ) : Except HXError ℝ :=
  pdiv UA Cmin

/-- `UA_from_NTU(NTU, Cmin) = NTU*Cmin` from `ht/hx.py`. -/
noncomputable def UA_from_NTU (NTU Cmin : ℝ) : ℝ :=
  NTU * Cmin

/-- The result dictionary of `effectiveness_NTU_method`:
`{Q, UA, Cr, Cmin, Cmax, effectiveness, NTU, Thi, Tho, Tci, Tco}`. -/
structure HXState where
  Q : ℝ
  UA : ℝ
  Cr : ℝ
  Cmin : ℝ
  Cmax : ℝ
  effectiveness : ℝ
  NTU : ℝ
  Thi : ℝ
  Tho : ℝ
  Tci : ℝ
  Tco : ℝ

/-- Python truthiness of an optional float: `None` and `0.0` are falsy.
The Mode-A dispatch of `effectiveness_NTU_method` tests temperatures
with `if Thi and Tci:` etc., which uses exactly this notion. -/
def truthy : Option ℝ → Prop
  | none => False
  | some x => x ≠ 0

attribute [local instance] Classical.propDecidable

/-- The four-way truthiness dispatch computing `Q` in Mode A of
`effectiveness_NTU_method` (lines 855-862 of `ht/hx.py`).  If no branch
fires, `Q` stays unassigned and its first use raises
`UnboundLocalError`. -/
noncomputable def modeA_Q (Cmin Cc Ch eff : ℝ) (Thi Tho Tci Tco : Option ℝ) :
    Except HXError ℝ :=
  if truthy Thi ∧ truthy Tci then
    pure (eff * Cmin * (Thi.getD 0 - Tci.getD 0))
  else if truthy Tho ∧ truthy Tco then
    pdiv (eff * Cmin * Cc * Ch * (Tco.getD 0 - Tho.getD 0))
      (eff * Cmin * (Cc + Ch) - Ch * Cc)
  else if truthy Thi ∧ truthy Tco then
    pdiv (Cmin * Cc * eff * (Tco.getD 0 - Thi.getD 0)) (eff * Cmin - Cc)
  else if truthy Tho ∧ truthy Tci then
    pdiv (Cmin * Ch * eff * (Tci.getD 0 - Tho.getD 0)) (eff * Cmin - Ch)
  else
    .error .unboundLocal

/-- `if Tci and not Tco: Tco = Tci + Q/Cc ; else: Tci = Tco - Q/Cc`
(lines 869-872), returning the resolved pair `(Tci, Tco)`. -/
noncomputable def modeA_cold (Q Cc : ℝ) (Tci Tco : Option ℝ) :
    Except HXError (ℝ × ℝ) :=
  if truthy Tci ∧ ¬ truthy Tco then do
    let d ← pdiv Q Cc
    pure (Tci.getD 0, Tci.getD 0 + d)
  else do
    let d ← pdiv Q Cc
    match Tco with
    | none => .error .noneArithmetic
    | some tco => pure (tco - d, tco)

/-- `if Thi and not Tho: Tho = Thi - Q/Ch ; else: Thi = Tho + Q/Ch`
(lines 873-876), returning the resolved pair `(Thi, Tho)`. -/
noncomputable def modeA_hot (Q Ch : ℝ) (Thi Tho : Option ℝ) :
    Except HXError (ℝ × ℝ) :=
  if truthy Thi ∧ ¬ truthy Tho then do
    let d ← pdiv Q Ch
    pure (Thi.getD 0, Thi.getD 0 - d)
  else do
    let d ← pdiv Q Ch
    match Tho with
    | none => .error .noneArithmetic
    | some tho => pure (tho + d, tho)

/-- Mode A of `effectiveness_NTU_method` (UA supplied), lines 847-876 of
`ht/hx.py`, after the capacity rates have been computed. -/
noncomputable def modeA (Cmin Cmax Cr Cc Ch : ℝ) (subtype : HXSubtype)
    (Thi Tho Tci Tco : Option ℝ) (ua : ℝ) : Except HXError HXState := do
  let NTU ← NTU_from_UA ua Cmin
  let eff ← effectiveness_from_NTU NTU Cr subtype
  -- `any([i for i in possible_inputs if None not in i])`
  if ¬ ((Tci ≠ none ∧ Thi ≠ none) ∨ (Tci ≠ none ∧ Tho ≠ none) ∨
        (Tco ≠ none ∧ Thi ≠ none) ∨ (Tco ≠ none ∧ Tho ≠ none)) then
    .error .insufficientInput
  else do
    let Q ← modeA_Q Cmin Cc Ch eff Thi Tho Tci Tco
    let tc ← modeA_cold Q Cc Tci Tco
    let th ← modeA_hot Q Ch Thi Tho
    pure ⟨Q, ua, Cr, Cmin, Cmax, eff, NTU, th.1, th.2, tc.1, tc.2⟩

/-- The tail of Mode B of `effectiveness_NTU_method` (lines 904-909):
once `Q` and all four temperatures are fixed, compute
`effectiveness = Q/Cmin/(Thi-Tci)`, invert to NTU and take
`UA = NTU*Cmin`. -/
noncomputable def modeB_finish (Cmin Cmax Cr : ℝ) (subtype : HXSubtype)
    (Q thi tho tci tco : ℝ) : Except HXError HXState := do
  let e1 ← pdiv Q Cmin
  let eff ← pdiv e1 (thi - tci)
  let NTU ← NTU_from_effectiveness eff Cr subtype
  pure ⟨Q, UA_from_NTU NTU Cmin, Cr, Cmin, Cmax, eff, NTU, thi, tho, tci, tco⟩

/-- Mode B of `effectiveness_NTU_method` (UA unknown), lines 878-909 of
`ht/hx.py`.  The branch tests use `is not None` (not truthiness); if
neither side has both temperatures, control falls through both branches
and the later `effectiveness = Q/...` raises `UnboundLocalError`. -/
noncomputable def modeB (mh mc Cph Cpc Cmin Cmax Cr : ℝ) (subtype : HXSubtype)
    (Thi Tho Tci Tco : Option ℝ) : Except HXError HXState :=
  match Thi, Tho with
  | some thi, some tho =>
      let Q := mh * Cph * (thi - tho)
      match Tci, Tco with
      | some tci, none => do
          let d ← pdiv Q (mc * Cpc)
          modeB_finish Cmin Cmax Cr subtype Q thi tho tci (tci + d)
      | none, some tco => do
          let d ← pdiv Q (mc * Cpc)
          modeB_finish Cmin Cmax Cr subtype Q thi tho (tco - d) tco
      | some tci, some tco => do
          -- Q2 = mc*Cpc*(Tco-Tci); if abs((Q-Q2)/Q) > 0.01: raise
          let rel ← pdiv (Q - mc * Cpc * (tco - tci)) Q
          if 0.01 < |rel| then .error .inconsistentInput
          else modeB_finish Cmin Cmax Cr subtype Q thi tho tci tco
      | none, none => .error .insufficientInput
  | _, _ =>
      match Tci, Tco with
      | some tci, some tco =>
          let Q := mc * Cpc * (tco - tci)
          match Thi, Tho with
          | some thi, none => do
              let d ← pdiv Q (mh * Cph)
              modeB_finish Cmin Cmax Cr subtype Q thi (thi - d) tci tco
          | none, some tho => do
              let d ← pdiv Q (mh * Cph)
              modeB_finish Cmin Cmax Cr subtype Q (tho + d) tho tci tco
          | _, _ => .error .insufficientInput
      | _, _ => .error .unboundLocal

/-- `effectiveness_NTU_method(mh, mc, Cph, Cpc, subtype, Thi, Tho, Tci,
Tco, UA)` from `ht/hx.py`: capacity rates first (the `Cr` division can
raise), then Mode A if UA is supplied, Mode B otherwise. -/
noncomputable def effectiveness_NTU_method (mh mc Cph Cpc : ℝ)
    (subtype : HXSubtype) (Thi Tho Tci Tco UA : Option ℝ) :
    Except HXError HXState := do
  let Cr ← calc_Cr mh mc Cph Cpc
  match UA with
  | some ua =>
      modeA (calc_Cmin mh mc Cph Cpc) (calc_Cmax mh mc Cph Cpc) Cr
        (mc * Cpc) (mh * Cph) subtype Thi Tho Tci Tco ua
  | none =>
      modeB mh mc Cph Cpc (calc_Cmin mh mc Cph Cpc) (calc_Cmax mh mc Cph Cpc)
        Cr subtype Thi Tho Tci Tco

/-- C10. Implicit edge case at the solver interface: in Mode A the Q
dispatch tests truthiness, so with `Tci = 0` (a known temperature that
is falsy), `Thi = 130` and `UA = 1` given — an input satisfying Mode A's
stated precondition, since the pair (Tci, Thi) is fully non-None and
passes the `possible_inputs` check — no Q branch fires and the method
terminates with the undefined-variable (`UnboundLocalError`) failure
instead of returning the solved state. -/
theorem C10_truthiness_unbound_Q :
    effectiveness_NTU_method 1 1 1 1 .counterflow (some 130) none (some 0)
      none (some 1) = .error .unboundLocal := by
  norm_num [effectiveness_NTU_method, calc_Cr, calc_Cmin, calc_Cmax, pdiv,
    modeA, modeA_Q, modeA_cold, modeA_hot, NTU_from_UA,
    effectiveness_from_NTU, truthy, Option.some_ne_none]

/-- C8 divergence theorem: with only `Thi` and `Tco` supplied and no UA,
Mode B falls through both branches and the first use of the unassigned
`Q` raises `UnboundLocalError` — not the `InsufficientInput` failure the
claim requires. -/
theorem C8_unbound_instead_of_insufficient :
    effectiveness_NTU_method 1 1 1 1 .counterflow (some 100) none none
      (some 50) none = .error .unboundLocal := by
  norm_num [effectiveness_NTU_method, calc_Cr, calc_Cmin, calc_Cmax, pdiv,
    modeB]

/-- C7. Mode B consistency check: with no UA and all four temperatures
supplied, the solver computes the hot-side `Q = mh*Cph*(Thi-Tho)` and
the cold-side `Q2 = mc*Cpc*(Tco-Tci)`, fails with `InconsistentInput`
exactly when `|(Q-Q2)/Q| > 0.01`, and otherwise proceeds with the
hot-side `Q` (the `modeB_finish` tail). -/
theorem C7_consistency_check (mh mc Cph Cpc : ℝ) (subtype : HXSubtype)
    (thi tho tci tco : ℝ)
    (hCmax : calc_Cmax mh mc Cph Cpc ≠ 0)
    (hQ : mh * Cph * (thi - tho) ≠ 0) :
    effectiveness_NTU_method mh mc Cph Cpc subtype (some thi) (some tho)
      (some tci) (some tco) none =
    (if 0.01 < |(mh * Cph * (thi - tho) - mc * Cpc * (tco - tci)) /
          (mh * Cph * (thi - tho))| then
      .error .inconsistentInput
    else
      modeB_finish (calc_Cmin mh mc Cph Cpc) (calc_Cmax mh mc Cph Cpc)
        (calc_Cmin mh mc Cph Cpc / calc_Cmax mh mc Cph Cpc) subtype
        (mh * Cph * (thi - tho)) thi tho tci tco) := by
  simp only [effectiveness_NTU_method, calc_Cr, pdiv_ok hCmax, ok_bind,
    modeB, pdiv_ok hQ]

/-- Witness for C7 at a consistent concrete input (`Q = 50`, `Q2 = 50`):
the check passes and the solver proceeds with the hot-side `Q`. -/
theorem C7_consistency_check_witness :
    effectiveness_NTU_method 1 1 1 1 .counterflow (some 100) (some 50)
      (some 0) (some 50) none =
    modeB_finish 1 1 1 .counterflow 50 100 50 0 50 := by
  have h := C7_consistency_check 1 1 1 1 .counterflow 100 50 0 50
    (by norm_num [calc_Cmax]) (by norm_num)
  rw [h]
  norm_num [calc_Cmin, calc_Cmax]

theorem bind_eq_ok {α β : Type} {e : Except HXError α}
    {f : α → Except HXError β} {b : β} (h : e >>= f = .ok b) :
    ∃ a, e = .ok a ∧ f a = .ok b := by
  cases e with
  | ok a => exact ⟨a, rfl, h⟩
  | error err => exact absurd h (by simp)

theorem pdiv_eq_ok {a b d : ℝ} (h : pdiv a b = .ok d) :
    b ≠ 0 ∧ d = a / b := by
  by_cases hb : b = 0
  · rw [pdiv, if_pos hb] at h
    exact absurd h (by simp)
  · rw [pdiv_ok hb] at h
    refine ⟨hb, ?_⟩
    injection h with h'
    exact h'.symm

theorem modeA_balance (Cmin Cmax Cr Cc Ch : ℝ) (subtype : HXSubtype)
    (Thi Tho Tci Tco : Option ℝ) (ua : ℝ) (st : HXState)
    (h : modeA Cmin Cmax Cr Cc Ch subtype Thi Tho Tci Tco ua = .ok st) :
    Ch * (st.Thi - st.Tho) = st.Q ∧ Cc * (st.Tco - st.Tci) = st.Q := by
  rw [modeA] at h
  obtain ⟨ntu, hntu, h⟩ := bind_eq_ok h
  obtain ⟨eff, heff, h⟩ := bind_eq_ok h
  by_cases hg : ¬ ((Tci ≠ none ∧ Thi ≠ none) ∨ (Tci ≠ none ∧ Tho ≠ none) ∨
      (Tco ≠ none ∧ Thi ≠ none) ∨ (Tco ≠ none ∧ Tho ≠ none))
  · rw [if_pos hg] at h
    exact absurd h (by simp)
  · rw [if_neg hg] at h
    obtain ⟨q, hq, h⟩ := bind_eq_ok h
    obtain ⟨tc, htc, h⟩ := bind_eq_ok h
    obtain ⟨th, hth, h⟩ := bind_eq_ok h
    have hst : st = ⟨q, ua, Cr, Cmin, Cmax, eff, ntu, th.1, th.2, tc.1, tc.2⟩ := by
      have := h.symm
      simpa using this
    have hcold : Cc ≠ 0 ∧ tc.2 - tc.1 = q / Cc := by
      rw [modeA_cold] at htc
      by_cases hc : truthy Tci ∧ ¬ truthy Tco
      · rw [if_pos hc] at htc
        obtain ⟨d, hd, htc'⟩ := bind_eq_ok htc
        obtain ⟨hCc, hdv⟩ := pdiv_eq_ok hd
        have hv : tc = (Tci.getD 0, Tci.getD 0 + d) := by simpa using htc'.symm
        rw [hv, hdv]
        exact ⟨hCc, by simp⟩
      · rw [if_neg hc] at htc
        obtain ⟨d, hd, htc'⟩ := bind_eq_ok htc
        obtain ⟨hCc, hdv⟩ := pdiv_eq_ok hd
        cases Tco with
        | none => exact absurd htc' (by simp)
        | some tco =>
          have hv : tc = (tco - d, tco) := by simpa using htc'.symm
          rw [hv, hdv]
          exact ⟨hCc, by simp⟩
    have hhot : Ch ≠ 0 ∧ th.1 - th.2 = q / Ch := by
      rw [modeA_hot] at hth
      by_cases hc : truthy Thi ∧ ¬ truthy Tho
      · rw [if_pos hc] at hth
        obtain ⟨d, hd, hth'⟩ := bind_eq_ok hth
        obtain ⟨hCh, hdv⟩ := pdiv_eq_ok hd
        have hv : th = (Thi.getD 0, Thi.getD 0 - d) := by simpa using hth'.symm
        rw [hv, hdv]
        exact ⟨hCh, by simp⟩
      · rw [if_neg hc] at hth
        obtain ⟨d, hd, hth'⟩ := bind_eq_ok hth
        obtain ⟨hCh, hdv⟩ := pdiv_eq_ok hd
        cases Tho with
        | none => exact absurd hth' (by simp)
        | some tho =>
          have hv : th = (tho + d, tho) := by simpa using hth'.symm
          rw [hv, hdv]
          exact ⟨hCh, by simp⟩
    rw [hst]
    constructor
    · show Ch * (th.1 - th.2) = q
      rw [hhot.2]
      field_simp [hhot.1]
    · show Cc * (tc.2 - tc.1) = q
      rw [hcold.2]
      field_simp [hcold.1]

theorem modeB_finish_fields (Cmin Cmax Cr : ℝ) (subtype : HXSubtype)
    (Q thi tho tci tco : ℝ) (st : HXState)
    (h : modeB_finish Cmin Cmax Cr subtype Q thi tho tci tco = .ok st) :
    st.Q = Q ∧ st.Thi = thi ∧ st.Tho = tho ∧ st.Tci = tci ∧ st.Tco = tco := by
  rw [modeB_finish] at h
  obtain ⟨e1, he1, h⟩ := bind_eq_ok h
  obtain ⟨eff, heff, h⟩ := bind_eq_ok h
  obtain ⟨ntu, hntu, h⟩ := bind_eq_ok h
  have hst : st = ⟨Q, UA_from_NTU ntu Cmin, Cr, Cmin, Cmax, eff, ntu,
      thi, tho, tci, tco⟩ := by
    have := h.symm
    simpa using this
  rw [hst]
  exact ⟨rfl, rfl, rfl, rfl, rfl⟩

theorem modeB_balance_missing (mh mc Cph Cpc Cmin Cmax Cr : ℝ)
    (subtype : HXSubtype) (Thi Tho Tci Tco : Option ℝ)
    (hmiss : Thi = none ∨ Tho = none ∨ Tci = none ∨ Tco = none)
    (st : HXState)
    (h : modeB mh mc Cph Cpc Cmin Cmax Cr subtype Thi Tho Tci Tco = .ok st) :
    mh * Cph * (st.Thi - st.Tho) = st.Q ∧
    mc * Cpc * (st.Tco - st.Tci) = st.Q := by
  rcases Thi with _ | thi <;> rcases Tho with _ | tho <;>
    rcases Tci with _ | tci <;> rcases Tco with _ | tco <;>
    simp only [modeB] at h
  -- (none, none, none, none) etc.: error branches
  case none.none.none.none => exact absurd h (by simp)
  case none.none.none.some => exact absurd h (by simp)
  case none.none.some.none => exact absurd h (by simp)
  case none.none.some.some => exact absurd h (by simp)
  case none.some.none.none => exact absurd h (by simp)
  case none.some.none.some => exact absurd h (by simp)
  case none.some.some.none => exact absurd h (by simp)
  case none.some.some.some =>
    obtain ⟨d, hd, h⟩ := bind_eq_ok h
    obtain ⟨hCh, hdv⟩ := pdiv_eq_ok hd
    obtain ⟨hQ, hThi, hTho, hTci, hTco⟩ := modeB_finish_fields _ _ _ _ _ _ _ _ _ _ h
    rw [hQ, hThi, hTho, hTci, hTco, hdv]
    constructor
    · field_simp
      ring
    · rfl
  case some.none.none.none => exact absurd h (by simp)
  case some.none.none.some => exact absurd h (by simp)
  case some.none.some.none => exact absurd h (by simp)
  case some.none.some.some =>
    obtain ⟨d, hd, h⟩ := bind_eq_ok h
    obtain ⟨hCh, hdv⟩ := pdiv_eq_ok hd
    obtain ⟨hQ, hThi, hTho, hTci, hTco⟩ := modeB_finish_fields _ _ _ _ _ _ _ _ _ _ h
    rw [hQ, hThi, hTho, hTci, hTco, hdv]
    constructor
    · field_simp
    · rfl
  case some.some.none.none => exact absurd h (by simp)
  case some.some.none.some =>
    obtain ⟨d, hd, h⟩ := bind_eq_ok h
    obtain ⟨hCc, hdv⟩ := pdiv_eq_ok hd
    obtain ⟨hQ, hThi, hTho, hTci, hTco⟩ := modeB_finish_fields _ _ _ _ _ _ _ _ _ _ h
    rw [hQ, hThi, hTho, hTci, hTco, hdv]
    constructor
    · rfl
    · field_simp
  case some.some.some.none =>
    obtain ⟨d, hd, h⟩ := bind_eq_ok h
    obtain ⟨hCc, hdv⟩ := pdiv_eq_ok hd
    obtain ⟨hQ, hThi, hTho, hTci, hTco⟩ := modeB_finish_fields _ _ _ _ _ _ _ _ _ _ h
    rw [hQ, hThi, hTho, hTci, hTco, hdv]
    constructor
    · rfl
    · field_simp
      ring
  case some.some.some.some =>
    rcases hmiss with hm | hm | hm | hm <;> exact absurd hm (by simp)

/-- C3, amended: the energy balance
`|Ch*(Thi-Tho) - Cc*(Tco-Tci)| / |Q| < 1e-6` holds (the two sides are
in fact exactly equal) for every successful Mode-A result and for every
successful Mode-B result in which at least one of the four temperatures
was inferred; when all four temperatures are supplied independently in
Mode B, the solver keeps them as given and only enforces the 1%
consistency threshold, so the balance can be off by up to 1% of Q (see
the counterexample). -/
theorem C3_energy_balance_amended (mh mc Cph Cpc : ℝ) (subtype : HXSubtype)
    (Thi Tho Tci Tco : Option ℝ) :
    (∀ ua : ℝ, ∀ st : HXState,
      effectiveness_NTU_method mh mc Cph Cpc subtype Thi Tho Tci Tco
        (some ua) = .ok st →
      |mh * Cph * (st.Thi - st.Tho) - mc * Cpc * (st.Tco - st.Tci)| / |st.Q|
        < 1e-6) ∧
    ((Thi = none ∨ Tho = none ∨ Tci = none ∨ Tco = none) →
      ∀ st : HXState,
      effectiveness_NTU_method mh mc Cph Cpc subtype Thi Tho Tci Tco
        none = .ok st →
      |mh * Cph * (st.Thi - st.Tho) - mc * Cpc * (st.Tco - st.Tci)| / |st.Q|
        < 1e-6) := by
  constructor
  · intro ua st h
    rw [effectiveness_NTU_method] at h
    obtain ⟨cr, hcr, h⟩ := bind_eq_ok h
    have hb := modeA_balance _ _ _ _ _ _ _ _ _ _ _ _ h
    rw [hb.1, hb.2, sub_self, abs_zero, zero_div]
    norm_num
  · intro hmiss st h
    rw [effectiveness_NTU_method] at h
    obtain ⟨cr, hcr, h⟩ := bind_eq_ok h
    have hb := modeB_balance_missing _ _ _ _ _ _ _ _ _ _ _ _ hmiss _ h
    rw [hb.1, hb.2, sub_self, abs_zero, zero_div]
    norm_num

/-- Witness for C3 amended: a concrete Mode-A solve (`Thi=100`,
`Tci=50`, `UA=1`, all capacity rates 1) whose returned state satisfies
the balance bound. -/
theorem C3_energy_balance_amended_witness :
    |(1:ℝ) * 1 * ((100:ℝ) - 75) - 1 * 1 * ((75:ℝ) - 50)| / |(25:ℝ)| < 1e-6 := by
  have h := (C3_energy_balance_amended 1 1 1 1 .counterflow (some 100) none
      (some 50) none).1 1 ⟨25, 1, 1, 1, 1, 1/2, 1, 100, 75, 50, 75⟩ (by
    norm_num [effectiveness_NTU_method, calc_Cr, calc_Cmin, calc_Cmax, pdiv,
      modeA, modeA_Q, modeA_cold, modeA_hot, NTU_from_UA,
      effectiveness_from_NTU, truthy, Option.some_ne_none])
  simpa using h

/-- C3 counterexample: in Mode B with all four temperatures supplied and
a 0.4% hot/cold mismatch (inside the 1% tolerance), the solver succeeds
but the returned state violates the 1e-6 energy-balance bound: the
relative imbalance is 0.004. -/
theorem C3_counterexample :
    effectiveness_NTU_method 1 1 1 1 .counterflow (some 100) (some 50)
      (some 0) (some 49.8) none
      = .ok ⟨50, 1, 1, 1, 1, 1/2, 1, 100, 50, 0, 49.8⟩ ∧
    ¬ (|(1:ℝ) * 1 * ((100:ℝ) - 50) - 1 * 1 * ((49.8:ℝ) - 0)| / |(50:ℝ)|
        < 1e-6) := by
  constructor
  · have habs : |(1:ℝ) / 250| = 1 / 250 := abs_of_pos (by norm_num)
    norm_num [effectiveness_NTU_method, calc_Cr, calc_Cmin, calc_Cmax, pdiv,
      modeB, modeB_finish, NTU_from_effectiveness, UA_from_NTU, habs]
  · rw [not_lt]
    rw [abs_of_pos (by norm_num), abs_of_pos (by norm_num)]
    norm_num

/-- The 1-1 TEMA J closed form (lines 1119-1125 of `ht/hx.py`), including
the separate `R1 == 2` limiting branch (`A**-2` is the integer power
`(A^2)⁻¹`; `B = exp(...)` is never zero so `R1/B` is a plain division). -/
noncomputable def TEMA_J_1 (R1 NTU1 : ℝ) : Except HXError ℝ :=
  let A := Real.exp NTU1
  let B := Real.exp (-NTU1 * R1 / 2)
  if R1 ≠ 2 then do
    let c ← pdiv 1 R1
    let d1 ← pdiv ((2 - R1) * (2 * A + R1 * B)) (2 + R1)
    let d2 ← pdiv d1 (2 * A - R1 / B)
    pure (c * (1 - d2))
  else do
    let d ← pdiv ((1 + (A ^ 2)⁻¹) / 2) (1 + NTU1)
    pure (0.5 * (1 - d))

/-- The 1-2 TEMA J closed form (lines 1126-1132 of `ht/hx.py`). -/
noncomputable def TEMA_J_2 (R1 NTU1 : ℝ) : Except HXError ℝ := do
  let lambda1 := Real.sqrt (1 + R1 ^ 2 / 4)
  let A := Real.exp NTU1
  let dD ← pdiv (lambda1 * A ^ ((lambda1 - 1) / 2)) (A ^ lambda1 - 1)
  let D := 1 + dD
  let C ← pdiv (A ^ ((1 + lambda1) / 2)) (lambda1 - 1 + (1 + lambda1) * A ^ lambda1)
  let B ← pdiv (A ^ lambda1 + 1) (A ^ lambda1 - 1)
  pdiv 1 (1 + R1 / 2 + lambda1 * B - 2 * lambda1 * C * D)

/-- The 1-4 TEMA J closed form (lines 1133-1140 of `ht/hx.py`);
`1 + E` with `E = exp(...) > 0` is never zero. -/
noncomputable def TEMA_J_4 (R1 NTU1 : ℝ) : Except HXError ℝ := do
  let lambda1 := Real.sqrt (1 + R1 ^ 2 / 16)
  let E := Real.exp (R1 * NTU1 / 2)
  let A := Real.exp NTU1
  let dD ← pdiv (lambda1 * A ^ ((lambda1 - 1) / 2)) (A ^ lambda1 - 1)
  let D := 1 + dD
  let C ← pdiv (A ^ ((1 + lambda1) / 2)) (lambda1 - 1 + (1 + lambda1) * A ^ lambda1)
  let B ← pdiv (A ^ lambda1 + 1) (A ^ lambda1 - 1)
  pdiv 1 (1 + R1 / 4 * (1 + 3 * E) / (1 + E) + lambda1 * B - 2 * lambda1 * C * D)

/-- `temperature_effectiveness_TEMA_J(R1, NTU1, Ntp)` from `ht/hx.py`:
dispatch on the tube-pass count, raising for `Ntp ∉ {1, 2, 4}`. -/
noncomputable def temperature_effectiveness_TEMA_J (R1 NTU1 : ℝ) (Ntp : ℕ) :
    Except HXError ℝ :=
  if Ntp = 1 then TEMA_J_1 R1 NTU1
  else if Ntp = 2 then TEMA_J_2 R1 NTU1
  else if Ntp = 4 then TEMA_J_4 R1 NTU1
  else .error .unsupportedPassCount

/-- The 1-1 TEMA H closed form (lines 1249-1257 of `ht/hx.py`), with the
`R1 == 2` limiting branch for `B`. -/
noncomputable def TEMA_H_1 (R1 NTU1 : ℝ) : Except HXError ℝ := do
  let c ← pdiv 1 (1 + R1 / 2)
  let A := c * (1 - Real.exp (-NTU1 * (1 + R1 / 2) / 2))
  let D := Real.exp (-NTU1 * (1 - R1 / 2) / 2)
  let B ← if R1 ≠ 2 then pdiv (1 - D) (1 - R1 * D / 2) else pdiv NTU1 (2 + NTU1)
  let E := (A + B - A * B * R1 / 2) / 2
  pure (E * (1 + (1 - B * R1 / 2) * (1 - A * R1 / 2 + A * B * R1))
    - A * B * (1 - B * R1 / 2))

/-- The 1-2 TEMA H closed form, efficient orientation (lines 1258-1270 of
`ht/hx.py`), with the `R1 == 4` limiting branch for `E` and `H`. -/
noncomputable def TEMA_H_2_optimal (R1 NTU1 : ℝ) : Except HXError ℝ := do
  let alpha := NTU1 * (4 + R1) / 8
  let beta := NTU1 * (4 - R1) / 8
  let c ← pdiv 4 R1
  let D ← pdiv (1 - Real.exp (-alpha)) (c + 1)
  let EH ←
    if R1 ≠ 4 then do
      let E ← pdiv (1 - Real.exp (-beta)) (c - 1)
      let H ← pdiv (1 - Real.exp (-2 * beta)) (c - 1)
      pure (E, H)
    else
      pure (NTU1 / 2, NTU1)
  let E := EH.1
  let H := EH.2
  let G := (1 - D) ^ 2 * (D ^ 2 + E ^ 2) + D ^ 2 * (1 + E) ^ 2
  let B := (1 + H) * (1 + E) ^ 2
  let c1 ← pdiv 1 R1
  let g2 ← pdiv (4 * G) R1
  let inner ← pdiv ((1 - D) ^ 4) (B - g2)
  pure (c1 * (1 - inner))

/-- The 1-2 TEMA H closed form, inefficient orientation (lines 1271-1291
of `ht/hx.py`): the roles of `(NTU1, R1)` are swapped with
`(NTU2, R2) = (NTU1*R1, 1/R1)`, the `P2` formula is evaluated (with its
`R = 0.25` limiting branch), and the result is converted back by
dividing by the original `R1`. -/
noncomputable def TEMA_H_2_inefficient (R1 NTU1 : ℝ) : Except HXError ℝ := do
  let N := NTU1 * R1
  let r ← pdiv 1 R1
  let beta := N * (4 * r + 1) / 8
  let alpha := N / 8 * (4 * r - 1)
  let H ← pdiv (Real.exp (-2 * beta) - 1) (4 * r + 1)
  let E ← pdiv (Real.exp (-beta) - 1) (4 * r + 1)
  let B := (1 + H) * (1 + E) ^ 2
  let P ←
    if r ≠ 0.25 then do
      let D ← pdiv (1 - Real.exp (-alpha)) (1 - 4 * r)
      let G := (1 - D) ^ 2 * (D ^ 2 + E ^ 2) + D ^ 2 * (1 + E) ^ 2
      let q ← pdiv (B + 4 * G * r) ((1 - D) ^ 4)
      pure (1 - q)
    else do
      let D := -N / 8
      let G := (1 - D) ^ 2 * (D ^ 2 + E ^ 2) + D ^ 2 * (1 + E) ^ 2
      let q ← pdiv (B + 4 * G * r) ((1 - D) ^ 4)
      pure (1 - q)
  pdiv P R1

/-- `temperature_effectiveness_TEMA_H(R1, NTU1, Ntp, optimal)` from
`ht/hx.py`: dispatch on the tube-pass count and the orientation flag,
raising for `Ntp ∉ {1, 2}`. -/
noncomputable def temperature_effectiveness_TEMA_H (R1 NTU1 : ℝ) (Ntp : ℕ)
    (optimal : Bool) : Except HXError ℝ :=
  if Ntp = 1 then TEMA_H_1 R1 NTU1
  else if Ntp = 2 then
    if optimal then TEMA_H_2_optimal R1 NTU1 else TEMA_H_2_inefficient R1 NTU1
  else .error .unsupportedPassCount

theorem TEMA_J_1_denominator_ne {R1 NTU1 : ℝ} (hR : 0 < R1) (hN : 0 < NTU1)
    (hR2 : R1 ≠ 2) :
    2 * Real.exp NTU1 - R1 / Real.exp (-NTU1 * R1 / 2) ≠ 0 := by
  have hrw : R1 / Real.exp (-NTU1 * R1 / 2) = R1 * Real.exp (NTU1 * R1 / 2) := by
    rw [show -NTU1 * R1 / 2 = -(NTU1 * R1 / 2) by ring, Real.exp_neg,
      div_inv_eq_mul]
  rw [hrw]
  rcases lt_or_gt_of_ne hR2 with h | h
  · have hmul : R1 * Real.exp (NTU1 * R1 / 2) < 2 * Real.exp NTU1 := by
      apply mul_lt_mul'' h _ hR.le (Real.exp_pos _).le
      rw [Real.exp_lt_exp]
      nlinarith
    intro hc
    nlinarith
  · have hmul : 2 * Real.exp NTU1 < R1 * Real.exp (NTU1 * R1 / 2) := by
      apply mul_lt_mul'' h _ (by norm_num) (Real.exp_pos _).le
      rw [Real.exp_lt_exp]
      nlinarith
    intro hc
    nlinarith

/-- C9. Pass-count validation of the P-NTU correlations:
`temperature_effectiveness_TEMA_J` fails with `UnsupportedPassCount`
for every `Ntp ∉ {1,2,4}` and `temperature_effectiveness_TEMA_H` for
every `Ntp ∉ {1,2}`, for all `R1` and `NTU1`; for in-range pass counts
each dispatches to its own closed-form `P1` (and the 1-1 TEMA J form
actually produces a value for positive inputs away from its `R1 = 2`
singular branch). -/
theorem C9_pass_count_validation (R1 NTU1 : ℝ) (Ntp : ℕ) (optimal : Bool)
    (hR : 0 < R1) (hN : 0 < NTU1) (hR2 : R1 ≠ 2) :
    (Ntp ≠ 1 → Ntp ≠ 2 → Ntp ≠ 4 →
      temperature_effectiveness_TEMA_J R1 NTU1 Ntp
        = .error .unsupportedPassCount) ∧
    (Ntp ≠ 1 → Ntp ≠ 2 →
      temperature_effectiveness_TEMA_H R1 NTU1 Ntp optimal
        = .error .unsupportedPassCount) ∧
    temperature_effectiveness_TEMA_J R1 NTU1 1 = TEMA_J_1 R1 NTU1 ∧
    temperature_effectiveness_TEMA_J R1 NTU1 2 = TEMA_J_2 R1 NTU1 ∧
    temperature_effectiveness_TEMA_J R1 NTU1 4 = TEMA_J_4 R1 NTU1 ∧
    temperature_effectiveness_TEMA_H R1 NTU1 1 optimal = TEMA_H_1 R1 NTU1 ∧
    temperature_effectiveness_TEMA_H R1 NTU1 2 true = TEMA_H_2_optimal R1 NTU1 ∧
    temperature_effectiveness_TEMA_H R1 NTU1 2 false
      = TEMA_H_2_inefficient R1 NTU1 ∧
    (∃ P1 : ℝ, temperature_effectiveness_TEMA_J R1 NTU1 1 = .ok P1) := by
  refine ⟨?_, ?_, ?_, ?_, ?_, ?_, ?_, ?_, ?_⟩
  · intro h1 h2 h4
    simp [temperature_effectiveness_TEMA_J, h1, h2, h4]
  · intro h1 h2
    simp [temperature_effectiveness_TEMA_H, h1, h2]
  · simp [temperature_effectiveness_TEMA_J]
  · simp [temperature_effectiveness_TEMA_J]
  · simp [temperature_effectiveness_TEMA_J]
  · simp [temperature_effectiveness_TEMA_H]
  · simp [temperature_effectiveness_TEMA_H]
  · simp [temperature_effectiveness_TEMA_H]
  · have hden := TEMA_J_1_denominator_ne hR hN hR2
    have h2R : (2:ℝ) + R1 ≠ 0 := by positivity
    simp only [temperature_effectiveness_TEMA_J, if_pos rfl, TEMA_J_1,
      if_pos hR2, pdiv_ok hR.ne', ok_bind, pdiv_ok h2R, pdiv_ok hden,
      pureHX_eq_ok]
    exact ⟨_, rfl⟩

/-- Witness for C9 at `R1 = 1`, `NTU1 = 1`, `Ntp = 3`. -/
theorem C9_pass_count_validation_witness :
    temperature_effectiveness_TEMA_J 1 1 3 = .error .unsupportedPassCount ∧
    (∃ P1 : ℝ, temperature_effectiveness_TEMA_J 1 1 1 = .ok P1) := by
  have h := C9_pass_count_validation 1 1 3 true (by norm_num) (by norm_num)
    (by norm_num)
  exact ⟨h.1 (by norm_num) (by norm_num) (by norm_num), h.2.2.2.2.2.2.2.2⟩

